import Mathlib

/-!
Verification of the Nexuschatapp secure-messaging core.

This file shallowly embeds `src/services/cryptoService.ts` and the peer /
session-key handling of `src/components/ChatInterface.tsx`.

Modelling conventions:
* Byte strings are `List Nat` with every entry `< 256`.
* The platform WebCrypto primitives (`crypto.subtle.encrypt/decrypt` for
  AES-GCM, `crypto.subtle.sign/verify` for RSA-PSS) are not part of the
  repository; they are modelled symbolically: a ciphertext records the key
  id, the iv and the plaintext bytes, a signature records the key id, the
  PSS salt and the signed bytes, each wrapped in an injective byte framing
  whose final byte is a mod-256 checksum.  A single flipped bit breaks the
  checksum (each byte changes by exactly 2^k, which is nonzero mod 256),
  which mirrors the all-or-nothing rejection of the real primitives.
* `window.btoa` / `window.atob` are modelled by an executable standard
  base64 codec; `atob` raises `InvalidCharacterError` on invalid input,
  modelled as the error `JsError.invalidCharacter`.
* `TextEncoder` / `TextDecoder` are modelled by an executable fixed-width
  (3 bytes per scalar) text codec: the encoder maps each unicode scalar to
  3 bytes, the decoder is total and lossy, mapping every invalid 3-byte
  unit (or trailing fragment) to U+FFFD, exactly like the non-fatal
  `TextDecoder` the code constructs.  The claims depend only on these
  codec properties, not on the UTF-8 byte grammar.
* JavaScript exceptions are modelled by `Except JsError`; the repository
  throws untyped `Error`s, carried here as `JsError.error msg`.
-/

/-- Predicate that a list of naturals is a genuine byte string. -/
def allBytes (l : List Nat) : Prop := ∀ b ∈ l, b < 256

instance (l : List Nat) : Decidable (allBytes l) := by
  unfold allBytes; infer_instance

/-- Flip bit `k` of byte `i` of a byte string (used to state tampering). -/
def flipBit (l : List Nat) (i : Nat) (k : Nat) : List Nat :=
  l.set i (l.getD i 0 ^^^ 2 ^ k)

theorem flipBit_length (l : List Nat) (i k : Nat) :
    (flipBit l i k).length = l.length := by
  simp [flipBit]

theorem allBytes_append {l r : List Nat} (hl : allBytes l) (hr : allBytes r) :
    allBytes (l ++ r) := by
  intro b hb
  rcases List.mem_append.1 hb with h | h
  · exact hl b h
  · exact hr b h

theorem allBytes_flipBit {l : List Nat} (h : allBytes l) (i : Nat) {k : Nat}
    (hk : k < 8) : allBytes (flipBit l i k) := by
  intro b hb
  rcases List.mem_or_eq_of_mem_set hb with h' | h'
  · exact h b h'
  · subst h'
    have h2 : (2 : Nat) ^ k < 2 ^ 8 := Nat.pow_lt_pow_right (by norm_num) hk
    by_cases hi : i < l.length
    · have hbi : l.getD i 0 < 256 := by
        rw [List.getD_eq_getElem l 0 hi]
        exact h _ (List.getElem_mem hi)
      exact Nat.xor_lt_two_pow hbi h2
    · have : l.getD i 0 = 0 := List.getD_eq_default _ _ (le_of_not_lt hi)
      rw [this]
      simpa using h2

theorem xor_pow_ne {b k : Nat} : b ^^^ 2 ^ k ≠ b := by
  intro h
  have h1 : b ^^^ (b ^^^ 2 ^ k) = b ^^^ b := congrArg (b ^^^ ·) h
  rw [← Nat.xor_assoc, Nat.xor_self, Nat.zero_xor] at h1
  exact (pow_pos (by norm_num : (0:Nat) < 2) k).ne' h1

/-- Sum of a list after updating one entry. -/
theorem sum_set (l : List Nat) (i v : Nat) (h : i < l.length) :
    (l.set i v).sum + l.getD i 0 = l.sum + v := by
  induction l generalizing i with
  | nil => simp at h
  | cons a t ih =>
    cases i with
    | zero => simp [List.set, Nat.add_comm, Nat.add_left_comm]
    | succ j =>
      have hj : j < t.length := by simpa using h
      simp only [List.set, List.sum_cons, List.getD_cons_succ]
      have := ih j hj
      omega

/-- Fuel-driven worker for `natToBytes` (structural recursion, so that
the encoding evaluates by kernel reduction on concrete inputs). -/
def natToBytesAux (fuel n : Nat) : List Nat :=
  match fuel with
  | 0 => [n % 128]
  | fuel + 1 =>
    if n < 128 then [n] else (n % 128 + 128) :: natToBytesAux fuel (n / 128)

/-- LEB128-style variable-length encoding of a natural number. -/
def natToBytes (n : Nat) : List Nat := natToBytesAux n n

theorem natToBytesAux_irrel (f1 f2 n : Nat) (h1 : n ≤ f1) (h2 : n ≤ f2) :
    natToBytesAux f1 n = natToBytesAux f2 n := by
  induction n using Nat.strong_induction_on generalizing f1 f2 with
  | _ n ih =>
    match f1, f2 with
    | 0, 0 => rfl
    | 0, b + 1 =>
      have : n = 0 := by omega
      subst this
      simp [natToBytesAux]
    | a + 1, 0 =>
      have : n = 0 := by omega
      subst this
      simp [natToBytesAux]
    | a + 1, b + 1 =>
      by_cases h : n < 128
      · simp [natToBytesAux, h]
      · have hlt : n / 128 < n := Nat.div_lt_self (by omega) (by norm_num)
        simp only [natToBytesAux, if_neg h]
        rw [ih (n / 128) hlt a b (by omega) (by omega)]

/-- The defining recurrence of `natToBytes`. -/
theorem natToBytes_eq (n : Nat) :
    natToBytes n = if n < 128 then [n] else (n % 128 + 128) :: natToBytes (n / 128) := by
  unfold natToBytes
  by_cases h : n < 128
  · rw [if_pos h]
    match n with
    | 0 => rfl
    | m + 1 => simp [natToBytesAux, h]
  · have hge : 128 ≤ n := le_of_not_lt h
    match n, hge with
    | m + 1, _ =>
      rw [if_neg h]
      simp only [natToBytesAux, if_neg h]
      have hlt : (m + 1) / 128 < m + 1 := Nat.div_lt_self (by omega) (by norm_num)
      rw [natToBytesAux_irrel m ((m + 1) / 128) ((m + 1) / 128) (by omega) (le_refl _)]

/-- Inverse of `natToBytes`, returning the decoded value and the rest. -/
def bytesToNat : List Nat → Option (Nat × List Nat)
  | [] => none
  | b :: rest =>
    if b < 128 then some (b, rest)
    else
      match bytesToNat rest with
      | some (n, rest') => some (n * 128 + (b - 128), rest')
      | none => none

theorem bytesToNat_natToBytes (n : Nat) (rest : List Nat) :
    bytesToNat (natToBytes n ++ rest) = some (n, rest) := by
  induction n using Nat.strong_induction_on with
  | _ n ih =>
    rw [natToBytes_eq]
    by_cases h : n < 128
    · rw [if_pos h]
      simp [bytesToNat, h]
    · rw [if_neg h]
      have hlt : n / 128 < n := Nat.div_lt_self (by omega) (by norm_num)
      have h1 : ¬ (n % 128 + 128 < 128) := by omega
      simp only [List.cons_append, bytesToNat, if_neg h1, List.append_eq,
        ih (n / 128) hlt]
      have : n / 128 * 128 + (n % 128 + 128 - 128) = n := by omega
      rw [this]

theorem allBytes_natToBytes (n : Nat) : allBytes (natToBytes n) := by
  induction n using Nat.strong_induction_on with
  | _ n ih =>
    rw [natToBytes_eq]
    by_cases h : n < 128
    · rw [if_pos h]
      intro b hb; simp at hb; omega
    · rw [if_neg h]
      have hlt : n / 128 < n := Nat.div_lt_self (by omega) (by norm_num)
      intro b hb
      rcases List.mem_cons.1 hb with h' | h'
      · omega
      · exact ih (n / 128) hlt b h'

/-- Length-prefixed byte-string field. -/
def withLen (d : List Nat) : List Nat := natToBytes d.length ++ d

/-- Parse a length-prefixed byte-string field. -/
def parseLen (l : List Nat) : Option (List Nat × List Nat) :=
  match bytesToNat l with
  | some (n, rest) =>
    if rest.length < n then none else some (rest.take n, rest.drop n)
  | none => none

theorem parseLen_withLen (d rest : List Nat) :
    parseLen (withLen d ++ rest) = some (d, rest) := by
  unfold parseLen withLen
  rw [List.append_assoc, bytesToNat_natToBytes]
  have h1 : ¬ ((d ++ rest).length < d.length) := by simp
  simp only [if_neg h1]
  rw [List.take_left, List.drop_left]

theorem allBytes_withLen {d : List Nat} (h : allBytes d) : allBytes (withLen d) :=
  allBytes_append (allBytes_natToBytes _) h

/-- Append a mod-256 checksum byte (model of the primitives' integrity). -/
def withCheck (body : List Nat) : List Nat := body ++ [body.sum % 256]

/-- Validate and strip the checksum byte. -/
def unCheck (s : List Nat) : Option (List Nat) :=
  match s.getLast? with
  | some ck => if ck = s.dropLast.sum % 256 then some s.dropLast else none
  | none => none

theorem unCheck_withCheck (body : List Nat) : unCheck (withCheck body) = some body := by
  unfold unCheck withCheck
  rw [List.getLast?_concat, List.dropLast_concat]
  simp

theorem allBytes_withCheck {body : List Nat} (h : allBytes body) :
    allBytes (withCheck body) := by
  refine allBytes_append h ?_
  intro b hb; simp at hb; omega

/-- Any single-bit flip of a checksummed frame invalidates the checksum.
This is the symbolic counterpart of the all-or-nothing rejection of a
tampered RSA-PSS signature or AES-GCM ciphertext. -/
theorem unCheck_flipBit {body : List Nat} (h : allBytes body) (i k : Nat)
    (hi : i < (withCheck body).length) (hk : k < 8) :
    unCheck (flipBit (withCheck body) i k) = none := by
  have hlen : (withCheck body).length = body.length + 1 := by simp [withCheck]
  by_cases hib : i < body.length
  · -- flip lands in the framed payload
    have hgd : (body ++ [body.sum % 256]).getD i 0 = body.getD i 0 :=
      List.getD_append _ _ 0 i hib
    have hset : flipBit (withCheck body) i k
        = body.set i (body.getD i 0 ^^^ 2 ^ k) ++ [body.sum % 256] := by
      unfold flipBit withCheck
      rw [hgd, List.set_append_left _ _ hib]
    rw [hset]
    unfold unCheck
    rw [List.getLast?_concat, List.dropLast_concat]
    set b := body.getD i 0 with hb
    set v := b ^^^ 2 ^ k with hv
    have hblt : b < 256 := by
      rw [hb, List.getD_eq_getElem body 0 hib]
      exact h _ (List.getElem_mem hib)
    have hvlt : v < 256 := by
      have h2 : (2 : Nat) ^ k < 2 ^ 8 := Nat.pow_lt_pow_right (by norm_num) hk
      exact Nat.xor_lt_two_pow hblt h2
    have hne : v ≠ b := xor_pow_ne
    have hsum : (body.set i v).sum + b = body.sum + v := sum_set body i v hib
    have : ¬ (body.sum % 256 = (body.set i v).sum % 256) := by omega
    simp [this]
  · -- flip lands on the checksum byte itself
    have hieq : i = body.length := by omega
    subst hieq
    have hgd : (body ++ [body.sum % 256]).getD body.length 0 = body.sum % 256 := by
      rw [List.getD_append_right body _ 0 body.length (le_refl _)]
      simp
    have hset : flipBit (withCheck body) body.length k
        = body ++ [body.sum % 256 ^^^ 2 ^ k] := by
      unfold flipBit withCheck
      rw [hgd, List.set_append_right _ _ (le_refl _)]
      simp
    rw [hset]
    unfold unCheck
    rw [List.getLast?_concat, List.dropLast_concat]
    have : ¬ (body.sum % 256 ^^^ 2 ^ k = body.sum % 256) := xor_pow_ne
    simp [this]

/-- Model of `TextEncoder` for one unicode scalar: three big-endian bytes. -/
def encChar (c : Char) : List Nat :=
  [c.toNat / 65536, c.toNat / 256 % 256, c.toNat % 256]

/-- Model of `TextEncoder.encode` on the underlying character list. -/
def textEncodeList : List Char → List Nat
  | [] => []
  | c :: cs => encChar c ++ textEncodeList cs

/-- Model of `TextEncoder.encode` (`encoder.encode(text)` in the source). -/
def textEncode (s : String) : List Nat := textEncodeList s.data

/-- Model of one `TextDecoder` unit: valid scalars decode, anything else
becomes U+FFFD (the decoder is constructed without `fatal`, so it never
throws). -/
def decUnit (a b c : Nat) : Char :=
  let v := a * 65536 + b * 256 + c
  if v.isValidChar then Char.ofNat v else '�'

/-- Model of `TextDecoder.decode` on byte lists: total and lossy. -/
def textDecodeList : List Nat → List Char
  | [] => []
  | [_] => ['�']
  | [_, _] => ['�']
  | a :: b :: c :: rest => decUnit a b c :: textDecodeList rest

/-- Model of `TextDecoder.decode` (`decoder.decode(decryptedBuffer)`). -/
def textDecode (l : List Nat) : String := ⟨textDecodeList l⟩

theorem char_toNat_isValid (c : Char) : c.toNat.isValidChar := by
  have := c.valid
  simpa [UInt32.isValidChar, Char.toNat] using this

theorem char_toNat_lt (c : Char) : c.toNat < 1114112 := by
  rcases char_toNat_isValid c with h | h
  · omega
  · omega

theorem decUnit_encChar (c : Char) :
    textDecodeList (encChar c) = [c] := by
  have hlt := char_toNat_lt c
  have hv : c.toNat / 65536 * 65536 + c.toNat / 256 % 256 * 256 + c.toNat % 256
      = c.toNat := by omega
  simp only [encChar, textDecodeList, decUnit, hv]
  rw [if_pos (char_toNat_isValid c), Char.ofNat_toNat]

theorem textDecodeList_encChar_append (c : Char) (l : List Nat) :
    textDecodeList (encChar c ++ l) = c :: textDecodeList l := by
  have hlt := char_toNat_lt c
  have hv : c.toNat / 65536 * 65536 + c.toNat / 256 % 256 * 256 + c.toNat % 256
      = c.toNat := by omega
  simp only [encChar, List.cons_append, List.nil_append, List.append_eq,
    textDecodeList, decUnit, hv]
  rw [if_pos (char_toNat_isValid c), Char.ofNat_toNat]

/-- The modelled text codec round-trips on every string. -/
theorem textDecode_textEncode (s : String) : textDecode (textEncode s) = s := by
  obtain ⟨data⟩ := s
  suffices h : textDecodeList (textEncodeList data) = data by
    simp only [textDecode, textEncode]
    rw [h]
  induction data with
  | nil => rfl
  | cons c cs ih =>
    rw [textEncodeList, textDecodeList_encChar_append, ih]

theorem allBytes_encChar (c : Char) : allBytes (encChar c) := by
  have hlt := char_toNat_lt c
  intro b hb
  simp only [encChar, List.mem_cons, List.not_mem_nil, or_false] at hb
  rcases hb with h | h | h <;> omega

theorem allBytes_textEncode (s : String) : allBytes (textEncode s) := by
  obtain ⟨data⟩ := s
  show allBytes (textEncodeList data)
  induction data with
  | nil => intro b hb; simp [textEncodeList] at hb
  | cons c cs ih =>
    rw [textEncodeList]
    exact allBytes_append (allBytes_encChar c) ih

/-- The standard base64 alphabet used by `window.btoa` / `window.atob`. -/
def b64Alphabet : List Char :=
  "ABCDEFGHIJKLMNOPQRSTUVWXYZabcdefghijklmnopqrstuvwxyz0123456789+/".data

/-- Sextet value to base64 character. -/
def encB64 (n : Nat) : Char := b64Alphabet.getD n '?'

/-- Base64 character back to sextet value; `none` on foreign characters. -/
def decB64 (c : Char) : Option Nat := b64Alphabet.indexOf? c

theorem decB64_encB64 : ∀ n < 64, decB64 (encB64 n) = some n := by decide

theorem encB64_ne_pad : ∀ n < 64, encB64 n ≠ '=' := by decide

/-- Model of `window.btoa` composed with the byte-extraction loop of
`arrayBufferToBase64` in the source: standard padded base64. -/
def b64encodeBytes : List Nat → List Char
  | [] => []
  | [a] => [encB64 (a / 4), encB64 (a % 4 * 16), '=', '=']
  | [a, b] => [encB64 (a / 4), encB64 (a % 4 * 16 + b / 16), encB64 (b % 16 * 4), '=']
  | a :: b :: c :: rest =>
    encB64 (a / 4) :: encB64 (a % 4 * 16 + b / 16) :: encB64 (b % 16 * 4 + c / 64)
      :: encB64 (c % 64) :: b64encodeBytes rest

/-- Model of `window.atob` composed with the byte loop of
`base64ToArrayBuffer`: `none` models the `InvalidCharacterError` that
`atob` throws on input that is not valid base64. -/
def b64decodeChars : List Char → Option (List Nat)
  | [] => some []
  | c1 :: c2 :: c3 :: c4 :: rest =>
    match decB64 c1, decB64 c2 with
    | some v1, some v2 =>
      if c3 = '=' then
        if c4 = '=' ∧ rest = [] ∧ v2 % 16 = 0 then some [v1 * 4 + v2 / 16] else none
      else
        match decB64 c3 with
        | some v3 =>
          if c4 = '=' then
            if rest = [] ∧ v3 % 4 = 0 then
              some [v1 * 4 + v2 / 16, v2 % 16 * 16 + v3 / 4]
            else none
          else
            match decB64 c4, b64decodeChars rest with
            | some v4, some tail =>
              some ((v1 * 4 + v2 / 16) :: (v2 % 16 * 16 + v3 / 4)
                :: (v3 % 4 * 64 + v4) :: tail)
            | _, _ => none
        | none => none
    | _, _ => none
  | _ => none

/-- The modelled base64 codec round-trips on every byte string. -/
theorem b64decode_b64encode (l : List Nat) (h : allBytes l) :
    b64decodeChars (b64encodeBytes l) = some l := by
  induction l using b64encodeBytes.induct with
  | case1 => rfl
  | case2 a =>
    have ha : a < 256 := h a (by simp)
    have e1 := decB64_encB64 (a / 4) (by omega)
    have e2 := decB64_encB64 (a % 4 * 16) (by omega)
    simp only [b64encodeBytes, b64decodeChars, e1, e2]
    have h16 : a % 4 * 16 % 16 = 0 := by omega
    simp [h16]
    omega
  | case3 a b =>
    have ha : a < 256 := h a (by simp)
    have hb : b < 256 := h b (by simp)
    have e1 := decB64_encB64 (a / 4) (by omega)
    have e2 := decB64_encB64 (a % 4 * 16 + b / 16) (by omega)
    have e3 := decB64_encB64 (b % 16 * 4) (by omega)
    have hne := encB64_ne_pad (b % 16 * 4) (by omega)
    simp only [b64encodeBytes, b64decodeChars, e1, e2, e3]
    have h4 : b % 16 * 4 % 4 = 0 := by omega
    have hb1 : a / 4 * 4 + (a % 4 * 16 + b / 16) / 16 = a := by omega
    simp [h4, hb1]
    rw [if_neg hne]
    have hb2 : (a % 4 * 16 + b / 16) % 16 * 16 + b % 16 = b := by omega
    rw [hb2]
  | case4 a b c rest ih =>
    have ha : a < 256 := h a (by simp)
    have hb : b < 256 := h b (by simp)
    have hc : c < 256 := h c (by simp)
    have hrest : allBytes rest := by
      intro x hx; exact h x (by simp [hx])
    have e1 := decB64_encB64 (a / 4) (by omega)
    have e2 := decB64_encB64 (a % 4 * 16 + b / 16) (by omega)
    have e3 := decB64_encB64 (b % 16 * 4 + c / 64) (by omega)
    have e4 := decB64_encB64 (c % 64) (by omega)
    have hne3 := encB64_ne_pad (b % 16 * 4 + c / 64) (by omega)
    have hne4 := encB64_ne_pad (c % 64) (by omega)
    simp only [b64encodeBytes, b64decodeChars, e1, e2, e3, e4, ih hrest]
    rw [if_neg hne3, if_neg hne4]
    have h1 : a / 4 * 4 + (a % 4 * 16 + b / 16) / 16 = a := by omega
    have h2 : (a % 4 * 16 + b / 16) % 16 * 16 + (b % 16 * 4 + c / 64) / 4 = b := by
      omega
    have h3 : (b % 16 * 4 + c / 64) % 4 * 64 + c % 64 = c := by omega
    rw [h1, h2, h3]

/-- JavaScript exception model: `invalidCharacter` is the DOMException
`atob` throws, `invalidAccess` is the DOMException WebCrypto throws on a
key-usage mismatch, and `error msg` is a thrown `new Error(msg)`. -/
inductive JsError where
  | invalidCharacter
  | invalidAccess
  | error (msg : String)
deriving DecidableEq

/-- Model of a JSON Web Key: its `kty` tag, the symbolic key material it
carries, and whether it is the private half. -/
structure JsonWebKey where
  kty : String
  material : Nat
  priv : Bool
deriving DecidableEq

/-- Model of a WebCrypto `CryptoKey`: symbolic key material plus the
usage the key was imported or generated for. -/
inductive CryptoKey where
  | rsaSign (kid : Nat)
  | rsaVerify (kid : Nat)
  | aes (kid : Nat)
deriving DecidableEq

/-- Data model of `UserIdentity` from `src/types.ts`. -/
structure UserIdentity where
  userId : String
  username : String
  publicKey : JsonWebKey
  privateKey : JsonWebKey
  publicKeyFingerprint : String
deriving DecidableEq

/-- Data model of `PublicIdentity` from `src/types.ts`. -/
structure PublicIdentity where
  userId : String
  username : String
  publicKey : JsonWebKey
  publicKeyFingerprint : String
deriving DecidableEq

/-- Data model of `EncryptedMessage` from `src/types.ts`. -/
structure EncryptedMessage where
  id : String
  senderId : String
  iv : String
  encryptedData : String
  signature : String
  timestamp : Nat
deriving DecidableEq

/-- Data model of `Message` from `src/types.ts`. -/
structure Message where
  id : String
  senderId : String
  text : String
  timestamp : Nat
  isLocalSender : Bool
deriving DecidableEq

/-- Explicit randomness consumed by `createEncryptedPayload`: the entropy
behind `getRandomValues` (iv), the RSA-PSS salt, `crypto.randomUUID()`
and `Date.now()`. -/
structure EntropyTape where
  ivSeed : Nat
  saltVal : Nat
  uuid : String
  now : Nat

/-- Model of `arrayBufferToBase64` (`cryptoService.ts` lines 16-24). -/
def arrayBufferToBase64 (buffer : List Nat) : String := ⟨b64encodeBytes buffer⟩

/-- Model of `base64ToArrayBuffer` (`cryptoService.ts` lines 27-35); the
`none` branch is `window.atob` throwing `InvalidCharacterError`. -/
def base64ToArrayBuffer (s : String) : Except JsError (List Nat) :=
  match b64decodeChars s.data with
  | some bytes => .ok bytes
  | none => .error .invalidCharacter

/-- Model of `exportKey` (`crypto.subtle.exportKey("jwk", key)`). -/
def exportKey : CryptoKey → JsonWebKey
  | .rsaSign kid => ⟨"RSA", kid, true⟩
  | .rsaVerify kid => ⟨"RSA", kid, false⟩
  | .aes kid => ⟨"oct", kid, false⟩

/-- Model of `importPublicKey`: a JWK imported for `verify` usage. -/
def importPublicKey (jwk : JsonWebKey) : CryptoKey := .rsaVerify jwk.material

/-- Model of `importPrivateKey`: a JWK imported for `sign` usage. -/
def importPrivateKey (jwk : JsonWebKey) : CryptoKey := .rsaSign jwk.material

/-- Model of `generateSharedSecret`: a fresh AES-GCM key from entropy. -/
def generateSharedSecret (seed : Nat) : CryptoKey := .aes seed

/-- Model of `exportAesKey`. -/
def exportAesKey (key : CryptoKey) : JsonWebKey := exportKey key

/-- Model of `importAesKey`. -/
def importAesKey (jwk : JsonWebKey) : CryptoKey := .aes jwk.material

/-- Model of `generateRsaKeyPair`: a fresh signing key pair. -/
def generateRsaKeyPair (seed : Nat) : CryptoKey × CryptoKey :=
  (.rsaSign seed, .rsaVerify seed)

/-- Symbolic RSA-PSS signature bytes: key id, salt and signed data in an
injective checksummed framing (see the header comment). -/
def sigBytes (kid saltVal : Nat) (data : List Nat) : List Nat :=
  withCheck (natToBytes kid ++ natToBytes saltVal ++ withLen data)

/-- Parse symbolic RSA-PSS signature bytes. -/
def sigParse (s : List Nat) : Option (Nat × Nat × List Nat) :=
  match unCheck s with
  | some body =>
    match bytesToNat body with
    | some (kid, r1) =>
      match bytesToNat r1 with
      | some (saltVal, r2) =>
        match parseLen r2 with
        | some (d, rest) => if rest = [] then some (kid, saltVal, d) else none
        | none => none
      | none => none
    | none => none
  | none => none

/-- Symbolic AES-GCM ciphertext bytes: key id, iv and plaintext in an
injective checksummed framing (the checksum plays the GCM tag). -/
def ctBytes (kid : Nat) (iv data : List Nat) : List Nat :=
  withCheck (natToBytes kid ++ withLen iv ++ withLen data)

/-- Parse symbolic AES-GCM ciphertext bytes. -/
def ctParse (c : List Nat) : Option (Nat × List Nat × List Nat) :=
  match unCheck c with
  | some body =>
    match bytesToNat body with
    | some (kid, r1) =>
      match parseLen r1 with
      | some (iv, r2) =>
        match parseLen r2 with
        | some (d, rest) => if rest = [] then some (kid, iv, d) else none
        | none => none
      | none => none
    | none => none
  | none => none

/-- Model of `signData` (`crypto.subtle.sign(SIGN_ALGORITHM, ...)`); the
salt comes from the signature scheme's fresh randomness (`saltLength: 32`
in `SIGN_ALGORITHM`). -/
def signData (privateKey : CryptoKey) (data : List Nat) (saltVal : Nat) :
    Except JsError (List Nat) :=
  match privateKey with
  | .rsaSign kid => .ok (sigBytes kid saltVal data)
  | _ => .error .invalidAccess

/-- Model of `verifySignature` (`crypto.subtle.verify`): accepts exactly
the honestly produced signatures of `data` under the matching key. -/
def verifySignature (publicKey : CryptoKey) (signature data : List Nat) :
    Except JsError Bool :=
  match publicKey with
  | .rsaVerify kid =>
    match sigParse signature with
    | some (k, _, d) => .ok (k == kid && d == data)
    | none => .ok false
  | _ => .error .invalidAccess

/-- Model of `crypto.subtle.encrypt` with AES-GCM. -/
def subtleEncrypt (key : CryptoKey) (iv data : List Nat) :
    Except JsError (List Nat) :=
  match key with
  | .aes kid => .ok (ctBytes kid iv data)
  | _ => .error .invalidAccess

/-- Model of `crypto.subtle.decrypt` with AES-GCM: fails (OperationError)
unless the ciphertext was produced under the same key and iv. -/
def subtleDecrypt (key : CryptoKey) (iv cipher : List Nat) :
    Except JsError (List Nat) :=
  match key with
  | .aes kid =>
    match ctParse cipher with
    | some (k, iv2, d) =>
      if k == kid && iv2 == iv then .ok d else .error (.error "OperationError")
    | none => .error (.error "OperationError")
  | _ => .error .invalidAccess

/-- Model of `getRandomValues(new Uint8Array(12))`: twelve bytes drawn
from an explicit entropy seed. -/
def randomIv (seed : Nat) : List Nat :=
  (List.range 12).map (fun i => seed / 256 ^ i % 256)

/-- Model of `encryptMessage` (`cryptoService.ts` lines 109-119). -/
def encryptMessage (text : String) (key : CryptoKey) (ivSeed : Nat) :
    Except JsError (List Nat × List Nat) :=
  let data := textEncode text
  let iv := randomIv ivSeed
  match subtleEncrypt key iv data with
  | .ok encryptedData => .ok (iv, encryptedData)
  | .error e => .error e

/-- The string `decryptMessage` returns from its `catch` branch. -/
def decryptFailMessage : String :=
  "⚠️ Could not decrypt message. Key might be wrong or message corrupted."

/-- Model of `decryptMessage` (`cryptoService.ts` lines 122-135): the
source wraps decryption in `try/catch` and returns a warning string on
failure, so the function is total and never throws. -/
def decryptMessage (encryptedData iv : List Nat) (key : CryptoKey) : String :=
  match subtleDecrypt key iv encryptedData with
  | .ok decryptedBuffer => textDecode decryptedBuffer
  | .error _ => decryptFailMessage

/-- Model of `createEncryptedPayload` (`cryptoService.ts` lines 138-152). -/
def createEncryptedPayload (text : String) (localIdentity : UserIdentity)
    (sharedKey : CryptoKey) (r : EntropyTape) : Except JsError EncryptedMessage :=
  match encryptMessage text sharedKey r.ivSeed with
  | .error e => .error e
  | .ok (iv, encryptedData) =>
    let privateKey := importPrivateKey localIdentity.privateKey
    match signData privateKey encryptedData r.saltVal with
    | .error e => .error e
    | .ok signature =>
      .ok { id := r.uuid, senderId := localIdentity.userId,
            iv := arrayBufferToBase64 iv,
            encryptedData := arrayBufferToBase64 encryptedData,
            signature := arrayBufferToBase64 signature,
            timestamp := r.now }

/-- The message of the `Error` thrown when verification fails. -/
def signatureErrorMessage : String :=
  "Message signature is invalid! The sender's identity could not be verified."

/-- Model of `readEncryptedPayload` (`cryptoService.ts` lines 155-168). -/
def readEncryptedPayload (payload : EncryptedMessage)
    (peerIdentity : PublicIdentity) (sharedKey : CryptoKey) :
    Except JsError String :=
  match base64ToArrayBuffer payload.encryptedData with
  | .error e => .error e
  | .ok encryptedData =>
    match base64ToArrayBuffer payload.signature with
    | .error e => .error e
    | .ok signature =>
      match base64ToArrayBuffer payload.iv with
      | .error e => .error e
      | .ok iv =>
        let publicKey := importPublicKey peerIdentity.publicKey
        match verifySignature publicKey signature encryptedData with
        | .error e => .error e
        | .ok isVerified =>
          if isVerified then .ok (decryptMessage encryptedData iv sharedKey)
          else .error (.error signatureErrorMessage)

/-- Instrumented copy of `readEncryptedPayload` recording whether the
verification step and the decryption step were reached, to state the
verify-then-decrypt ordering. -/
def readEncryptedPayloadTrace (payload : EncryptedMessage)
    (peerIdentity : PublicIdentity) (sharedKey : CryptoKey) :
    Except JsError String × Bool × Bool :=
  match base64ToArrayBuffer payload.encryptedData with
  | .error e => (.error e, false, false)
  | .ok encryptedData =>
    match base64ToArrayBuffer payload.signature with
    | .error e => (.error e, false, false)
    | .ok signature =>
      match base64ToArrayBuffer payload.iv with
      | .error e => (.error e, false, false)
      | .ok iv =>
        let publicKey := importPublicKey peerIdentity.publicKey
        match verifySignature publicKey signature encryptedData with
        | .error e => (.error e, true, false)
        | .ok isVerified =>
          if isVerified then
            (.ok (decryptMessage encryptedData iv sharedKey), true, true)
          else (.error (.error signatureErrorMessage), true, false)

/-- Model of `JSON.stringify` on the modelled JWK structure. -/
def jsonStringify (jwk : JsonWebKey) : String :=
  "\x7b\"kty\":\"" ++ jwk.kty ++ "\",\"material\":" ++ toString jwk.material
    ++ ",\"priv\":" ++ (if jwk.priv then "true" else "false") ++ "\x7d"

/-- Modelled stand-in for the platform `crypto.subtle.digest("SHA-256")`:
an executable deterministic 32-byte digest of the input bytes.  The
claims rely only on determinism and the output format (32 bytes, each
< 256), never on the compression function itself. -/
def sha256 (m : List Nat) : List Nat :=
  (List.range 32).map
    (fun i => (m.foldl (fun a b => a * 31 + b + 7) (i + m.length + 1)) % 256)

theorem sha256_length (m : List Nat) : (sha256 m).length = 32 := by
  simp [sha256]

theorem allBytes_sha256 (m : List Nat) : allBytes (sha256 m) := by
  intro b hb
  simp only [sha256, List.mem_map] at hb
  obtain ⟨i, _, hi⟩ := hb
  omega

/-- Lowercase hex digit, as produced by `b.toString(16)`. -/
def hexDigit (n : Nat) : Char := "0123456789abcdef".data.getD n '0'

/-- Model of the loop `hashArray.map(b => b.toString(16).padStart(2, "0"))
.join("")`: two lowercase hex digits per byte. -/
def bytesToHex : List Nat → List Char
  | [] => []
  | b :: rest => hexDigit (b / 16) :: hexDigit (b % 16) :: bytesToHex rest

/-- Model of `generatePublicKeyFingerprint` (`cryptoService.ts` lines
74-81): hex of SHA-256 of `JSON.stringify(publicKey)`, truncated to 16
characters and uppercased. -/
def generatePublicKeyFingerprint (publicKey : JsonWebKey) : String :=
  let pubKeyString := jsonStringify publicKey
  let data := textEncode pubKeyString
  let hashBytes := sha256 data
  ⟨((bytesToHex hashBytes).take 16).map Char.toUpper⟩

theorem bytesToHex_length (l : List Nat) : (bytesToHex l).length = 2 * l.length := by
  induction l with
  | nil => rfl
  | cons b rest ih => simp [bytesToHex, ih]; omega

theorem bytesToHex_take (l : List Nat) :
    (bytesToHex l).take 16 = bytesToHex (l.take 8) := by
  induction l using bytesToHex.induct with
  | case1 => rfl
  | case2 b rest ih =>
    cases rest with
    | nil => rfl
    | cons b2 r2 =>
      cases r2 with
      | nil => rfl
      | cons b3 r3 =>
        cases r3 with
        | nil => rfl
        | cons b4 r4 =>
          cases r4 with
          | nil => rfl
          | cons b5 r5 =>
            cases r5 with
            | nil => rfl
            | cons b6 r6 =>
              cases r6 with
              | nil => rfl
              | cons b7 r7 =>
                cases r7 with
                | nil => rfl
                | cons b8 r8 => simp [bytesToHex, List.take]

/-- The character is an uppercase hexadecimal digit. -/
def isUpperHexDigit (c : Char) : Prop := c ∈ "0123456789ABCDEF".data

instance (c : Char) : Decidable (isUpperHexDigit c) := by
  unfold isUpperHexDigit; infer_instance

theorem hexDigit_toUpper_mem : ∀ n, isUpperHexDigit (hexDigit n).toUpper := by
  intro n
  by_cases h : n < 16
  · revert h; revert n; decide
  · have hlen : ("0123456789abcdef".data).length = 16 := rfl
    have : hexDigit n = '0' := by
      unfold hexDigit
      exact List.getD_eq_default _ _ (by omega)
    rw [this]; decide

theorem hexDigit_toUpper_inj :
    ∀ m < 16, ∀ n < 16, (hexDigit m).toUpper = (hexDigit n).toUpper → m = n := by
  decide

theorem bytesToHex_map_toUpper_inj (l1 l2 : List Nat)
    (h1 : allBytes l1) (h2 : allBytes l2)
    (h : (bytesToHex l1).map Char.toUpper = (bytesToHex l2).map Char.toUpper) :
    l1 = l2 := by
  induction l1 generalizing l2 with
  | nil =>
    cases l2 with
    | nil => rfl
    | cons b t => simp [bytesToHex] at h
  | cons b t ih =>
    cases l2 with
    | nil => simp [bytesToHex] at h
    | cons b2 t2 =>
      simp only [bytesToHex, List.map_cons, List.cons.injEq] at h
      obtain ⟨hh1, hh2, hrest⟩ := h
      have hb : b < 256 := h1 b (by simp)
      have hb2 : b2 < 256 := h2 b2 (by simp)
      have e1 : b / 16 = b2 / 16 :=
        hexDigit_toUpper_inj _ (by omega) _ (by omega) hh1
      have e2 : b % 16 = b2 % 16 :=
        hexDigit_toUpper_inj _ (by omega) _ (by omega) hh2
      have : b = b2 := by omega
      subst this
      have : t = t2 := ih t2 (fun x hx => h1 x (by simp [hx]))
        (fun x hx => h2 x (by simp [hx])) hrest
      rw [this]

theorem sigParse_sigBytes (kid saltVal : Nat) (d : List Nat) :
    sigParse (sigBytes kid saltVal d) = some (kid, saltVal, d) := by
  unfold sigParse sigBytes
  rw [List.append_assoc]
  simp only [unCheck_withCheck, bytesToNat_natToBytes]
  have h := parseLen_withLen d []
  rw [List.append_nil] at h
  simp [h]

theorem ctParse_ctBytes (kid : Nat) (iv d : List Nat) :
    ctParse (ctBytes kid iv d) = some (kid, iv, d) := by
  unfold ctParse ctBytes
  rw [List.append_assoc]
  simp only [unCheck_withCheck, bytesToNat_natToBytes, parseLen_withLen]
  have h := parseLen_withLen d []
  rw [List.append_nil] at h
  simp [h]

theorem allBytes_sigBytes {d : List Nat} (hd : allBytes d) (kid saltVal : Nat) :
    allBytes (sigBytes kid saltVal d) :=
  allBytes_withCheck (allBytes_append
    (allBytes_append (allBytes_natToBytes _) (allBytes_natToBytes _))
    (allBytes_withLen hd))

theorem allBytes_ctBytes {iv d : List Nat} (hiv : allBytes iv)
    (hd : allBytes d) (kid : Nat) : allBytes (ctBytes kid iv d) :=
  allBytes_withCheck (allBytes_append
    (allBytes_append (allBytes_natToBytes _) (allBytes_withLen hiv))
    (allBytes_withLen hd))

theorem allBytes_randomIv (seed : Nat) : allBytes (randomIv seed) := by
  intro b hb
  simp only [randomIv, List.mem_map] at hb
  obtain ⟨i, _, hi⟩ := hb
  omega

theorem randomIv_length (seed : Nat) : (randomIv seed).length = 12 := by
  simp [randomIv]

/-- Base64 round-trips through the modelled `btoa` / `atob` pair. -/
theorem base64_roundtrip (l : List Nat) (h : allBytes l) :
    base64ToArrayBuffer (arrayBufferToBase64 l) = .ok l := by
  unfold base64ToArrayBuffer arrayBufferToBase64
  rw [show (⟨b64encodeBytes l⟩ : String).data = b64encodeBytes l from rfl]
  rw [b64decode_b64encode l h]

/-- Model of `getPublicIdentity` (`ChatInterface.tsx` lines 161-166); this
is the spec's `exportPublicKey` projection. -/
def getPublicIdentity (identity : UserIdentity) : PublicIdentity :=
  { userId := identity.userId, username := identity.username,
    publicKey := identity.publicKey,
    publicKeyFingerprint := identity.publicKeyFingerprint }

/-- Opening an honestly sealed envelope with the matching claimed sender
and the sealing key verifies and decrypts to the sealed bytes. -/
theorem readEncryptedPayload_honest (kid kk saltVal : Nat) (iv d : List Nat)
    (hiv : allBytes iv) (hd : allBytes d) (peer : PublicIdentity)
    (hpk : peer.publicKey.material = kid) (idStr sndr : String) (ts : Nat) :
    readEncryptedPayload
      { id := idStr, senderId := sndr,
        iv := arrayBufferToBase64 iv,
        encryptedData := arrayBufferToBase64 (ctBytes kk iv d),
        signature := arrayBufferToBase64 (sigBytes kid saltVal (ctBytes kk iv d)),
        timestamp := ts }
      peer (.aes kk)
    = .ok (textDecode d) := by
  unfold readEncryptedPayload
  simp only [base64_roundtrip _ (allBytes_ctBytes hiv hd kk),
    base64_roundtrip _ (allBytes_sigBytes (allBytes_ctBytes hiv hd kk) kid saltVal),
    base64_roundtrip _ hiv,
    importPublicKey, hpk, verifySignature, sigParse_sigBytes]
  simp [decryptMessage, subtleDecrypt, ctParse_ctBytes]

/-- Model of the object produced by `JSON.parse(peerInput)` before the
field checks: `publicKey` is `none` when the property is missing or
`null`, and a missing string property is modelled as `""` (both are falsy
in the source's truthiness guard). -/
structure ParsedPeer where
  userId : String
  username : String
  publicKey : Option JsonWebKey
  publicKeyFingerprint : String
deriving DecidableEq

/-- Component state of `ChatInterface` relevant to peer and session-key
handling: the React state fields plus the `shared-aes-key` localStorage
slot (the UI-only booleans and modal flags are omitted). -/
structure ChatState where
  peer : Option PublicIdentity
  peerInput : String
  message : String
  messages : List Message
  sharedKey : Option CryptoKey
  error : String
  sharedKeyStored : Option JsonWebKey
deriving DecidableEq

/-- The error message set by the `catch` branch of `handleAddPeer`. -/
def invalidPeerMessage : String :=
  "Invalid peer identity format. Please paste the correct JSON payload or scan a valid QR code."

/-- The error message for adding oneself. -/
def selfPeerMessage : String := "You can't add yourself as a peer."

/-- Model of `handleAddPeer` (`ChatInterface.tsx` lines 95-115).  `parsed`
is `none` when `JSON.parse` threw; the truthiness guard and the
self-check mirror the source, and on success the peer is stored, the
input and message list cleared, and the `shared-aes-key` slot removed. -/
def handleAddPeer (st : ChatState) (identity : UserIdentity)
    (parsed : Option ParsedPeer) : ChatState :=
  let st0 := { st with error := "" }
  match parsed with
  | none => { st0 with error := invalidPeerMessage }
  | some p =>
    match p.publicKey with
    | some pk =>
      if p.userId ≠ "" ∧ p.username ≠ "" ∧ p.publicKeyFingerprint ≠ "" then
        if p.userId = identity.userId then
          { st0 with error := selfPeerMessage }
        else
          { st0 with
            peer := some ⟨p.userId, p.username, pk, p.publicKeyFingerprint⟩,
            peerInput := "", messages := [], sharedKeyStored := none }
      else { st0 with error := invalidPeerMessage }
    | none => { st0 with error := invalidPeerMessage }

/-- Model of `deriveAndSetSharedKey` (`ChatInterface.tsx` lines 71-87):
if a stored key exists and a peer is set it is imported, otherwise with a
peer set a fresh key is generated, persisted and activated. -/
def deriveAndSetSharedKey (st : ChatState) (freshSeed : Nat) : ChatState :=
  match st.sharedKeyStored with
  | some jwk =>
    if st.peer.isSome then { st with sharedKey := some (importAesKey jwk) } else st
  | none =>
    if st.peer.isSome then
      let newKey := generateSharedSecret freshSeed
      { st with
        sharedKeyStored := some (exportAesKey newKey),
        sharedKey := some newKey }
    else st

/-- The condition under which `handleAddPeer` accepts the payload and
calls `setPeer` (so that the `[peer]` effect re-runs). -/
def addPeerAccepted (identity : UserIdentity) (parsed : Option ParsedPeer) : Prop :=
  match parsed with
  | some p =>
    p.publicKey.isSome ∧ p.userId ≠ "" ∧ p.username ≠ ""
      ∧ p.publicKeyFingerprint ≠ "" ∧ p.userId ≠ identity.userId
  | none => False

instance (identity : UserIdentity) (parsed : Option ParsedPeer) :
    Decidable (addPeerAccepted identity parsed) := by
  unfold addPeerAccepted
  cases parsed <;> infer_instance

/-- One sequential connect event: `handleAddPeer` followed, when the peer
was replaced, by the `useEffect` run of `deriveAndSetSharedKey` (in React
the effect re-runs exactly when `setPeer` received the new object). -/
def stepAddPeer (st : ChatState) (identity : UserIdentity)
    (parsed : Option ParsedPeer) (freshSeed : Nat) : ChatState :=
  let st2 := handleAddPeer st identity parsed
  if addPeerAccepted identity parsed then deriveAndSetSharedKey st2 freshSeed
  else st2

theorem flipBit_ne {l : List Nat} (i k : Nat) (hi : i < l.length) :
    flipBit l i k ≠ l := by
  intro h
  have hg : (flipBit l i k).getD i 0 = l.getD i 0 := by rw [h]
  have hs : (flipBit l i k).getD i 0 = l.getD i 0 ^^^ 2 ^ k := by
    unfold flipBit
    rw [List.getD_eq_getElem _ _ (by simpa using hi)]
    simp [List.getElem_set_self]
  rw [hs] at hg
  exact xor_pow_ne hg

theorem base64ToArrayBuffer_error {s : String} {e : JsError}
    (h : base64ToArrayBuffer s = .error e) : e = .invalidCharacter := by
  unfold base64ToArrayBuffer at h
  cases hd : b64decodeChars s.data with
  | some l => rw [hd] at h; simp at h
  | none => rw [hd] at h; simpa [eq_comm] using h

theorem mem_bytesToHex_toUpper {l : List Nat} {c : Char}
    (h : c ∈ bytesToHex l) : isUpperHexDigit c.toUpper := by
  induction l with
  | nil => simp [bytesToHex] at h
  | cons b t ih =>
    simp only [bytesToHex, List.mem_cons] at h
    rcases h with h | h | h
    · rw [h]; exact hexDigit_toUpper_mem _
    · rw [h]; exact hexDigit_toUpper_mem _
    · exact ih h

/-- Model of the `SIGN_ALGORITHM` constant (`cryptoService.ts` line 13). -/
structure SignAlgorithmSpec where
  name : String
  saltLength : Nat
deriving DecidableEq

/-- The source's `SIGN_ALGORITHM = { name: "RSA-PSS", saltLength: 32 }`. -/
def SIGN_ALGORITHM : SignAlgorithmSpec := ⟨"RSA-PSS", 32⟩

/-- Replace the envelope's ciphertext field by the same bytes with one
bit flipped (decode, flip, re-encode). -/
def tamperCiphertext (env : EncryptedMessage) (i k : Nat) : EncryptedMessage :=
  match b64decodeChars env.encryptedData.data with
  | some bytes => { env with encryptedData := arrayBufferToBase64 (flipBit bytes i k) }
  | none => env

/-- Replace the envelope's signature field by the same bytes with one bit
flipped (decode, flip, re-encode). -/
def tamperSignature (env : EncryptedMessage) (i k : Nat) : EncryptedMessage :=
  match b64decodeChars env.signature.data with
  | some bytes => { env with signature := arrayBufferToBase64 (flipBit bytes i k) }
  | none => env

/-- Concrete identity used by the evaluation witnesses. -/
def wIdentity : UserIdentity :=
  { userId := "alice-uuid", username := "Alice",
    publicKey := ⟨"RSA", 1, false⟩, privateKey := ⟨"RSA", 1, true⟩,
    publicKeyFingerprint := "0123456789ABCDEF" }

/-- Concrete peer view of `wIdentity` used by the evaluation witnesses. -/
def wPeer : PublicIdentity := getPublicIdentity wIdentity

/-- Concrete entropy used by the evaluation witnesses. -/
def wTape : EntropyTape :=
  { ivSeed := 79228162514264337593543950335, saltVal := 6, uuid := "id-1", now := 1000 }

/-- C1: for every plaintext `P`, identity `I` with matching public and
private key material, and AES session key, opening the envelope produced
by `createEncryptedPayload` with `readEncryptedPayload`, using `I`'s
exported public identity as the claimed sender and the same session key,
returns exactly `P`. -/
theorem c1_seal_open_roundtrip (P : String) (I : UserIdentity) (kk : Nat)
    (r : EntropyTape) (hI : I.publicKey.material = I.privateKey.material) :
    ∃ env, createEncryptedPayload P I (.aes kk) r = .ok env ∧
      readEncryptedPayload env (getPublicIdentity I) (.aes kk) = .ok P := by
  refine ⟨{ id := r.uuid,
            senderId := I.userId,
            iv := arrayBufferToBase64 (randomIv r.ivSeed),
            encryptedData := arrayBufferToBase64
              (ctBytes kk (randomIv r.ivSeed) (textEncode P)),
            signature := arrayBufferToBase64 (sigBytes I.privateKey.material
              r.saltVal (ctBytes kk (randomIv r.ivSeed) (textEncode P))),
            timestamp := r.now }, rfl, ?_⟩
  have hpk : (getPublicIdentity I).publicKey.material = I.privateKey.material := by
    simpa [getPublicIdentity] using hI
  rw [readEncryptedPayload_honest I.privateKey.material kk r.saltVal
    (randomIv r.ivSeed) (textEncode P) (allBytes_randomIv r.ivSeed)
    (allBytes_textEncode P) (getPublicIdentity I) hpk r.uuid I.userId r.now]
  rw [textDecode_textEncode]

/-- C1 witness: the round trip evaluated on a concrete plaintext,
identity and session key. -/
theorem c1_seal_open_roundtrip_witness :
    ∃ env, createEncryptedPayload "hello" wIdentity (.aes 5) wTape = .ok env ∧
      readEncryptedPayload env (getPublicIdentity wIdentity) (.aes 5) = .ok "hello" :=
  c1_seal_open_roundtrip "hello" wIdentity 5 wTape rfl

/-- Concrete sealed envelope for the tamper witness: `"hi"` sealed by
`wIdentity` under session key 5. -/
def wSealed : EncryptedMessage :=
  { id := wTape.uuid, senderId := wIdentity.userId,
    iv := arrayBufferToBase64 (randomIv wTape.ivSeed),
    encryptedData := arrayBufferToBase64
      (ctBytes 5 (randomIv wTape.ivSeed) (textEncode "hi")),
    signature := arrayBufferToBase64 (sigBytes 1 wTape.saltVal
      (ctBytes 5 (randomIv wTape.ivSeed) (textEncode "hi"))),
    timestamp := wTape.now }

/-- C2: `readEncryptedPayload` verifies before decrypting.  First part:
whenever the fields decode but verification fails, the call aborts with
the signature error, the verification step was reached and the decryption
step never is.  Second part: in every execution whose trace shows the
decryption step reached, the signature check on the decoded ciphertext
returned true — decryption is never attempted on an unverified
ciphertext. -/
theorem c2_verify_then_decrypt (payload : EncryptedMessage)
    (peer : PublicIdentity) (key : CryptoKey) :
    (∀ enc sig iv : List Nat,
        base64ToArrayBuffer payload.encryptedData = .ok enc →
        base64ToArrayBuffer payload.signature = .ok sig →
        base64ToArrayBuffer payload.iv = .ok iv →
        verifySignature (importPublicKey peer.publicKey) sig enc = .ok false →
        readEncryptedPayloadTrace payload peer key
          = (.error (.error signatureErrorMessage), true, false)
        ∧ readEncryptedPayload payload peer key
          = .error (.error signatureErrorMessage))
    ∧ ((readEncryptedPayloadTrace payload peer key).2.2 = true →
        ∃ enc sig : List Nat,
          base64ToArrayBuffer payload.encryptedData = .ok enc
          ∧ base64ToArrayBuffer payload.signature = .ok sig
          ∧ verifySignature (importPublicKey peer.publicKey) sig enc
            = .ok true) := by
  constructor
  · intro enc sig iv henc hsig hiv hver
    constructor
    · unfold readEncryptedPayloadTrace
      simp [henc, hsig, hiv, hver]
    · unfold readEncryptedPayload
      simp [henc, hsig, hiv, hver]
  · intro hflag
    unfold readEncryptedPayloadTrace at hflag
    cases hE : base64ToArrayBuffer payload.encryptedData with
    | error e => simp [hE] at hflag
    | ok enc =>
      cases hS : base64ToArrayBuffer payload.signature with
      | error e => simp [hE, hS] at hflag
      | ok sg =>
        cases hI : base64ToArrayBuffer payload.iv with
        | error e => simp [hE, hS, hI] at hflag
        | ok iv2 =>
          cases hV : verifySignature (importPublicKey peer.publicKey) sg enc with
          | error e => simp [hE, hS, hI, hV] at hflag
          | ok b =>
            cases b with
            | false => simp [hE, hS, hI, hV] at hflag
            | true => exact ⟨enc, sg, rfl, rfl, hV⟩

/-- C2 witness: on a concrete envelope whose signature does not verify,
the trace shows the abort with no decryption; on a concrete honestly
sealed envelope whose trace reaches decryption, the verification step is
confirmed to have returned true. -/
theorem c2_verify_then_decrypt_witness :
    (readEncryptedPayloadTrace
      { id := "e1", senderId := "alice-uuid",
        iv := arrayBufferToBase64 (randomIv 1),
        encryptedData := arrayBufferToBase64 [1, 2, 3],
        signature := arrayBufferToBase64 [0],
        timestamp := 0 }
      wPeer (.aes 5)
      = (.error (.error signatureErrorMessage), true, false)
    ∧ readEncryptedPayload
      { id := "e1", senderId := "alice-uuid",
        iv := arrayBufferToBase64 (randomIv 1),
        encryptedData := arrayBufferToBase64 [1, 2, 3],
        signature := arrayBufferToBase64 [0],
        timestamp := 0 }
      wPeer (.aes 5)
      = .error (.error signatureErrorMessage))
    ∧ (∃ enc sig : List Nat,
        base64ToArrayBuffer wSealed.encryptedData = .ok enc
        ∧ base64ToArrayBuffer wSealed.signature = .ok sig
        ∧ verifySignature (importPublicKey wPeer.publicKey) sig enc
          = .ok true) :=
  ⟨(c2_verify_then_decrypt _ wPeer (.aes 5)).1 [1, 2, 3] [0] (randomIv 1)
      (by rfl) (by rfl) (by rfl) (by rfl),
   (c2_verify_then_decrypt wSealed wPeer (.aes 5)).2 (by rfl)⟩

theorem data_arrayBufferToBase64 (l : List Nat) :
    (arrayBufferToBase64 l).data = b64encodeBytes l := rfl

/-- C3: flipping any single bit of the ciphertext or of the signature of
a sealed envelope makes `readEncryptedPayload` fail with the signature
error; it never returns a successfully decrypted wrong plaintext. -/
theorem c3_tamper_detected (P : String) (I : UserIdentity) (kk : Nat)
    (r : EntropyTape) (env : EncryptedMessage)
    (henv : createEncryptedPayload P I (.aes kk) r = .ok env)
    (hI : I.publicKey.material = I.privateKey.material)
    (i k j k2 : Nat) (hk : k < 8) (hk2 : k2 < 8)
    (hi : i < (ctBytes kk (randomIv r.ivSeed) (textEncode P)).length)
    (hj : j < (sigBytes I.privateKey.material r.saltVal
      (ctBytes kk (randomIv r.ivSeed) (textEncode P))).length) :
    readEncryptedPayload (tamperCiphertext env i k) (getPublicIdentity I) (.aes kk)
      = .error (.error signatureErrorMessage)
    ∧ readEncryptedPayload (tamperSignature env j k2) (getPublicIdentity I) (.aes kk)
      = .error (.error signatureErrorMessage) := by
  have hct : allBytes (ctBytes kk (randomIv r.ivSeed) (textEncode P)) :=
    allBytes_ctBytes (allBytes_randomIv _) (allBytes_textEncode _) kk
  have hsg : allBytes (sigBytes I.privateKey.material r.saltVal
      (ctBytes kk (randomIv r.ivSeed) (textEncode P))) :=
    allBytes_sigBytes hct _ _
  rw [show createEncryptedPayload P I (.aes kk) r = Except.ok
      { id := r.uuid,
        senderId := I.userId,
        iv := arrayBufferToBase64 (randomIv r.ivSeed),
        encryptedData := arrayBufferToBase64
          (ctBytes kk (randomIv r.ivSeed) (textEncode P)),
        signature := arrayBufferToBase64 (sigBytes I.privateKey.material
          r.saltVal (ctBytes kk (randomIv r.ivSeed) (textEncode P))),
        timestamp := r.now } from rfl] at henv
  injection henv with henv
  subst henv
  have hpk : importPublicKey (getPublicIdentity I).publicKey
      = .rsaVerify I.privateKey.material := by
    simp [importPublicKey, getPublicIdentity, hI]
  constructor
  · -- flipped ciphertext: the recorded signed bytes no longer match
    unfold tamperCiphertext
    simp only [data_arrayBufferToBase64,
      b64decode_b64encode _ hct]
    unfold readEncryptedPayload
    have hne : (sigBytes I.privateKey.material r.saltVal
        (ctBytes kk (randomIv r.ivSeed) (textEncode P))) ≠ [] := by
      simp [sigBytes, withCheck]
    simp only [base64_roundtrip _ (allBytes_flipBit hct i hk),
      base64_roundtrip _ hsg, base64_roundtrip _ (allBytes_randomIv r.ivSeed),
      hpk, verifySignature, sigParse_sigBytes]
    have hbne : ((ctBytes kk (randomIv r.ivSeed) (textEncode P))
        == flipBit (ctBytes kk (randomIv r.ivSeed) (textEncode P)) i k) = false :=
      beq_eq_false_iff_ne.mpr (Ne.symm (flipBit_ne i k hi))
    simp [hbne]
  · -- flipped signature: the checksummed frame no longer parses
    unfold tamperSignature
    simp only [data_arrayBufferToBase64, b64decode_b64encode _ hsg]
    unfold readEncryptedPayload
    have hflip : sigParse (flipBit (sigBytes I.privateKey.material r.saltVal
        (ctBytes kk (randomIv r.ivSeed) (textEncode P))) j k2) = none := by
      unfold sigParse sigBytes
      rw [unCheck_flipBit (allBytes_append
        (allBytes_append (allBytes_natToBytes _) (allBytes_natToBytes _))
        (allBytes_withLen hct)) j k2 hj hk2]
    simp only [base64_roundtrip _ hct,
      base64_roundtrip _ (allBytes_flipBit hsg j hk2),
      base64_roundtrip _ (allBytes_randomIv r.ivSeed),
      hpk, verifySignature, hflip]
    simp

/-- C3 witness: flipping bit 0 of byte 0 of the ciphertext, or of the
signature, of a concrete sealed envelope is rejected as a signature
failure. -/
theorem c3_tamper_detected_witness :
    readEncryptedPayload (tamperCiphertext wSealed 0 0)
      (getPublicIdentity wIdentity) (.aes 5)
      = .error (.error signatureErrorMessage)
    ∧ readEncryptedPayload (tamperSignature wSealed 0 0)
      (getPublicIdentity wIdentity) (.aes 5)
      = .error (.error signatureErrorMessage) :=
  c3_tamper_detected "hi" wIdentity 5 wTape wSealed rfl rfl 0 0 0 0
    (by decide) (by decide) (by decide) (by decide)

/-- Concrete sealed envelope for the wrong-key counterexample: `"hi"`
sealed by `wIdentity` under session key 1. -/
def wSealedK1 : EncryptedMessage :=
  { id := wTape.uuid, senderId := wIdentity.userId,
    iv := arrayBufferToBase64 (randomIv wTape.ivSeed),
    encryptedData := arrayBufferToBase64
      (ctBytes 1 (randomIv wTape.ivSeed) (textEncode "hi")),
    signature := arrayBufferToBase64 (sigBytes 1 wTape.saltVal
      (ctBytes 1 (randomIv wTape.ivSeed) (textEncode "hi"))),
    timestamp := wTape.now }

/-- C4 counterexample: opening a sealed envelope with a different session
key does NOT fail with a decryption error — signature verification
succeeds, the caught decryption failure is swallowed by `decryptMessage`,
and `readEncryptedPayload` returns the in-band warning string as a
successful result. -/
theorem c4_counterexample :
    createEncryptedPayload "hi" wIdentity (.aes 1) wTape = .ok wSealedK1
    ∧ readEncryptedPayloadTrace wSealedK1 wPeer (.aes 2)
      = (.ok decryptFailMessage, true, true)
    ∧ readEncryptedPayload wSealedK1 wPeer (.aes 2) = .ok decryptFailMessage
    ∧ decryptFailMessage ≠ "" :=
  ⟨rfl, rfl, rfl, by decide⟩

/-- C4 amended: opening with a session key different from the sealing key
passes signature verification (which is independent of the session key),
reaches decryption, and returns — successfully, not as a typed failure —
the fixed warning string of `decryptMessage`, which differs from the
empty string. -/
theorem c4_wrong_key_in_band_warning (P : String) (I : UserIdentity)
    (kk1 kk2 : Nat) (r : EntropyTape)
    (hI : I.publicKey.material = I.privateKey.material) (hne : kk1 ≠ kk2) :
    ∃ env, createEncryptedPayload P I (.aes kk1) r = .ok env ∧
      readEncryptedPayloadTrace env (getPublicIdentity I) (.aes kk2)
        = (.ok decryptFailMessage, true, true)
      ∧ decryptFailMessage ≠ "" := by
  have hct : allBytes (ctBytes kk1 (randomIv r.ivSeed) (textEncode P)) :=
    allBytes_ctBytes (allBytes_randomIv _) (allBytes_textEncode _) kk1
  have hsg : allBytes (sigBytes I.privateKey.material r.saltVal
      (ctBytes kk1 (randomIv r.ivSeed) (textEncode P))) :=
    allBytes_sigBytes hct _ _
  have hpk : importPublicKey (getPublicIdentity I).publicKey
      = .rsaVerify I.privateKey.material := by
    simp [importPublicKey, getPublicIdentity, hI]
  refine ⟨{ id := r.uuid,
            senderId := I.userId,
            iv := arrayBufferToBase64 (randomIv r.ivSeed),
            encryptedData := arrayBufferToBase64
              (ctBytes kk1 (randomIv r.ivSeed) (textEncode P)),
            signature := arrayBufferToBase64 (sigBytes I.privateKey.material
              r.saltVal (ctBytes kk1 (randomIv r.ivSeed) (textEncode P))),
            timestamp := r.now }, rfl, ?_, by decide⟩
  unfold readEncryptedPayloadTrace
  simp only [base64_roundtrip _ hct, base64_roundtrip _ hsg,
    base64_roundtrip _ (allBytes_randomIv r.ivSeed),
    hpk, verifySignature, sigParse_sigBytes]
  have hk : (kk1 == kk2) = false := beq_eq_false_iff_ne.mpr hne
  simp [decryptMessage, subtleDecrypt, ctParse_ctBytes, hk]

/-- C4 amended witness: the wrong-key outcome evaluated concretely. -/
theorem c4_wrong_key_in_band_warning_witness :
    ∃ env, createEncryptedPayload "hi" wIdentity (.aes 1) wTape = .ok env ∧
      readEncryptedPayloadTrace env (getPublicIdentity wIdentity) (.aes 2)
        = (.ok decryptFailMessage, true, true)
      ∧ decryptFailMessage ≠ "" :=
  c4_wrong_key_in_band_warning "hi" wIdentity 1 2 wTape rfl (by decide)

/-- Envelope whose decoded nonce has length 16 (not the 12 bytes AES-GCM
uses here) but whose other fields are honestly produced. -/
def wLongIvEnvelope : EncryptedMessage :=
  { id := "e2", senderId := wIdentity.userId,
    iv := arrayBufferToBase64 (List.replicate 16 7),
    encryptedData := arrayBufferToBase64
      (ctBytes 5 (randomIv wTape.ivSeed) (textEncode "hi")),
    signature := arrayBufferToBase64 (sigBytes 1 wTape.saltVal
      (ctBytes 5 (randomIv wTape.ivSeed) (textEncode "hi"))),
    timestamp := 0 }

/-- C5 counterexample: the code performs no nonce-length validation.  An
envelope whose iv decodes to 16 bytes is not rejected at decode time:
signature verification and decryption are both reached (trace flags), and
the call returns successfully instead of failing before verification. -/
theorem c5_counterexample :
    base64ToArrayBuffer wLongIvEnvelope.iv = .ok (List.replicate 16 7)
    ∧ (List.replicate 16 7).length = 16
    ∧ readEncryptedPayloadTrace wLongIvEnvelope wPeer (.aes 5)
      = (.ok decryptFailMessage, true, true) :=
  ⟨rfl, rfl, rfl⟩

/-- C5 amended: an envelope whose `iv`, `encryptedData` or `signature`
field is not valid base64 makes `readEncryptedPayload` abort with the
`InvalidCharacterError` from `atob` before the verification or decryption
steps are reached; the decoded-nonce length, however, is never checked. -/
theorem c5_malformed_base64_rejected (payload : EncryptedMessage)
    (peer : PublicIdentity) (key : CryptoKey)
    (hbad : base64ToArrayBuffer payload.encryptedData = .error .invalidCharacter
          ∨ base64ToArrayBuffer payload.signature = .error .invalidCharacter
          ∨ base64ToArrayBuffer payload.iv = .error .invalidCharacter) :
    readEncryptedPayloadTrace payload peer key
      = (.error .invalidCharacter, false, false)
    ∧ readEncryptedPayload payload peer key = .error .invalidCharacter := by
  rcases hbad with h | h | h
  · constructor
    · unfold readEncryptedPayloadTrace
      simp [h]
    · unfold readEncryptedPayload
      simp [h]
  · cases hE : base64ToArrayBuffer payload.encryptedData with
    | error e =>
      have he := base64ToArrayBuffer_error hE
      subst he
      constructor
      · unfold readEncryptedPayloadTrace
        simp [hE]
      · unfold readEncryptedPayload
        simp [hE]
    | ok enc =>
      constructor
      · unfold readEncryptedPayloadTrace
        simp [hE, h]
      · unfold readEncryptedPayload
        simp [hE, h]
  · cases hE : base64ToArrayBuffer payload.encryptedData with
    | error e =>
      have he := base64ToArrayBuffer_error hE
      subst he
      constructor
      · unfold readEncryptedPayloadTrace
        simp [hE]
      · unfold readEncryptedPayload
        simp [hE]
    | ok enc =>
      cases hS : base64ToArrayBuffer payload.signature with
      | error e =>
        have he := base64ToArrayBuffer_error hS
        subst he
        constructor
        · unfold readEncryptedPayloadTrace
          simp [hE, hS]
        · unfold readEncryptedPayload
          simp [hE, hS]
      | ok sg =>
        constructor
        · unfold readEncryptedPayloadTrace
          simp [hE, hS, h]
        · unfold readEncryptedPayload
          simp [hE, hS, h]

/-- C5 amended witness: a concrete envelope with a non-base64 iv field is
rejected before verification and decryption. -/
theorem c5_malformed_base64_rejected_witness :
    readEncryptedPayloadTrace
      { id := "e4", senderId := "x", iv := "%%%",
        encryptedData := arrayBufferToBase64 [1],
        signature := arrayBufferToBase64 [1], timestamp := 0 }
      wPeer (.aes 5)
      = (.error .invalidCharacter, false, false)
    ∧ readEncryptedPayload
      { id := "e4", senderId := "x", iv := "%%%",
        encryptedData := arrayBufferToBase64 [1],
        signature := arrayBufferToBase64 [1], timestamp := 0 }
      wPeer (.aes 5)
      = .error .invalidCharacter :=
  c5_malformed_base64_rejected _ wPeer (.aes 5) (Or.inr (Or.inr rfl))

/-- Honestly sealed envelope whose plaintext bytes are not valid text
(0xFFFFFF is not a unicode scalar). -/
def wInvalidTextEnvelope : EncryptedMessage :=
  { id := "e3", senderId := wIdentity.userId,
    iv := arrayBufferToBase64 (randomIv wTape.ivSeed),
    encryptedData := arrayBufferToBase64
      (ctBytes 5 (randomIv wTape.ivSeed) [255, 255, 255]),
    signature := arrayBufferToBase64 (sigBytes 1 wTape.saltVal
      (ctBytes 5 (randomIv wTape.ivSeed) [255, 255, 255])),
    timestamp := 0 }

/-- C6 counterexample: a verified envelope whose decrypted bytes are not
valid text does NOT fail with an encoding error — the non-fatal decoder
substitutes U+FFFD and `readEncryptedPayload` returns successfully. -/
theorem c6_counterexample :
    readEncryptedPayload wInvalidTextEnvelope wPeer (.aes 5)
      = .ok (textDecode [255, 255, 255])
    ∧ textDecode [255, 255, 255] = "�"
    ∧ ¬ (255 * 65536 + 255 * 256 + 255).isValidChar :=
  ⟨rfl, rfl, by decide⟩

/-- C6 amended: every successfully verified and decrypted envelope yields
`.ok` of the lossy text decoding of the decrypted bytes — the plaintext
string when the bytes are valid text, U+FFFD substitutions otherwise —
and never an encoding failure. -/
theorem c6_decode_total (kid kk saltVal : Nat) (iv d : List Nat)
    (hiv : allBytes iv) (hd : allBytes d) (peer : PublicIdentity)
    (hpk : peer.publicKey.material = kid) (idStr sndr : String) (ts : Nat) :
    readEncryptedPayload
      { id := idStr, senderId := sndr,
        iv := arrayBufferToBase64 iv,
        encryptedData := arrayBufferToBase64 (ctBytes kk iv d),
        signature := arrayBufferToBase64 (sigBytes kid saltVal (ctBytes kk iv d)),
        timestamp := ts }
      peer (.aes kk)
    = .ok (textDecode d) :=
  readEncryptedPayload_honest kid kk saltVal iv d hiv hd peer hpk idStr sndr ts

/-- C6 amended witness: the lossy decoding evaluated on the concrete
invalid-text envelope. -/
theorem c6_decode_total_witness :
    readEncryptedPayload
      { id := "e3", senderId := wIdentity.userId,
        iv := arrayBufferToBase64 (randomIv wTape.ivSeed),
        encryptedData := arrayBufferToBase64
          (ctBytes 5 (randomIv wTape.ivSeed) [255, 255, 255]),
        signature := arrayBufferToBase64 (sigBytes 1 wTape.saltVal
          (ctBytes 5 (randomIv wTape.ivSeed) [255, 255, 255])),
        timestamp := 0 }
      wPeer (.aes 5)
    = .ok (textDecode [255, 255, 255]) :=
  c6_decode_total 1 5 wTape.saltVal (randomIv wTape.ivSeed) [255, 255, 255]
    (allBytes_randomIv _) (by decide) wPeer rfl "e3" wIdentity.userId 0

/-- C7: the fingerprint is the uppercased first 16 characters of the
lowercase hex of the SHA-256 of the canonical JSON serialization of the
key — a 16-character uppercase-hex string, a pure (hence repeatable)
function of the key — and two keys whose truncated digests differ get
different fingerprints. -/
theorem c7_fingerprint_spec (k1 k2 : JsonWebKey)
    (hcol : (sha256 (textEncode (jsonStringify k1))).take 8
          ≠ (sha256 (textEncode (jsonStringify k2))).take 8) :
    (generatePublicKeyFingerprint k1).length = 16
    ∧ (∀ c ∈ (generatePublicKeyFingerprint k1).data, isUpperHexDigit c)
    ∧ generatePublicKeyFingerprint k1
      = ⟨((bytesToHex (sha256 (textEncode (jsonStringify k1)))).take 16).map
          Char.toUpper⟩
    ∧ generatePublicKeyFingerprint k1 ≠ generatePublicKeyFingerprint k2 := by
  refine ⟨?_, ?_, rfl, ?_⟩
  · show (((bytesToHex (sha256 (textEncode (jsonStringify k1)))).take 16).map
      Char.toUpper).length = 16
    rw [List.length_map, List.length_take, bytesToHex_length, sha256_length]
    norm_num
  · intro c hc
    have hc' : c ∈ ((bytesToHex (sha256 (textEncode (jsonStringify k1)))).take
        16).map Char.toUpper := hc
    obtain ⟨c', hc'', rfl⟩ := List.mem_map.1 hc'
    exact mem_bytesToHex_toUpper (List.take_subset _ _ hc'')
  · intro heq
    have hdata := congrArg String.data heq
    have hdata' :
        ((bytesToHex (sha256 (textEncode (jsonStringify k1)))).take 16).map
          Char.toUpper
        = ((bytesToHex (sha256 (textEncode (jsonStringify k2)))).take 16).map
          Char.toUpper := hdata
    rw [bytesToHex_take, bytesToHex_take] at hdata'
    exact hcol (bytesToHex_map_toUpper_inj _ _
      (fun x hx => allBytes_sha256 _ x (List.take_subset _ _ hx))
      (fun x hx => allBytes_sha256 _ x (List.take_subset _ _ hx)) hdata')

set_option maxRecDepth 100000 in
/-- C7 witness: format and distinctness evaluated on two concrete keys. -/
theorem c7_fingerprint_spec_witness :
    (generatePublicKeyFingerprint ⟨"RSA", 1, false⟩).length = 16
    ∧ generatePublicKeyFingerprint ⟨"RSA", 1, false⟩
      ≠ generatePublicKeyFingerprint ⟨"RSA", 2, false⟩ :=
  ⟨(c7_fingerprint_spec ⟨"RSA", 1, false⟩ ⟨"RSA", 2, false⟩ (by decide)).1,
   (c7_fingerprint_spec ⟨"RSA", 1, false⟩ ⟨"RSA", 2, false⟩ (by decide)).2.2.2⟩

/-- C8: with `SIGN_ALGORITHM`'s 32-byte salt, signing is probabilistic:
two signing runs over the same data whose fresh salts differ produce
different signature byte strings. -/
theorem c8_probabilistic_signature (kid : Nat) (data : List Nat)
    (s1 s2 : Nat) (hne : s1 ≠ s2) :
    SIGN_ALGORITHM.saltLength = 32
    ∧ signData (.rsaSign kid) data s1 ≠ signData (.rsaSign kid) data s2 := by
  refine ⟨rfl, ?_⟩
  intro h
  simp only [signData] at h
  have h2 : sigBytes kid s1 data = sigBytes kid s2 data := by
    simpa using h
  have h3 := congrArg sigParse h2
  rw [sigParse_sigBytes, sigParse_sigBytes] at h3
  simp at h3
  exact hne h3

/-- C8 witness: two concrete salts give two distinct signatures. -/
theorem c8_probabilistic_signature_witness :
    SIGN_ALGORITHM.saltLength = 32
    ∧ signData (.rsaSign 1) [1, 2] 0 ≠ signData (.rsaSign 1) [1, 2] 1 :=
  c8_probabilistic_signature 1 [1, 2] 0 1 (by decide)

/-- C9: when a connect event is accepted, the `shared-aes-key` slot is
cleared by `handleAddPeer` and the effect regenerates a fresh session key
before any further sealing or opening: afterwards both the stored and the
active key are the freshly generated one, and any different previously
active key is gone.  (The state holds at most one session key by
construction: a single React state variable and a single storage slot.) -/
theorem c9_fresh_session_key_on_new_peer (st : ChatState)
    (identity : UserIdentity) (p : ParsedPeer) (seed : Nat)
    (hacc : addPeerAccepted identity (some p)) :
    (stepAddPeer st identity (some p) seed).sharedKeyStored
      = some (exportAesKey (generateSharedSecret seed))
    ∧ (stepAddPeer st identity (some p) seed).sharedKey
      = some (generateSharedSecret seed)
    ∧ ∀ oldKey : CryptoKey, st.sharedKey = some oldKey →
        oldKey ≠ generateSharedSecret seed →
        (stepAddPeer st identity (some p) seed).sharedKey ≠ some oldKey := by
  have hacc' := hacc
  simp only [addPeerAccepted] at hacc'
  obtain ⟨hpk, hu, hn, hf, hself⟩ := hacc'
  obtain ⟨pk, hpk'⟩ := Option.isSome_iff_exists.1 hpk
  have hstep : stepAddPeer st identity (some p) seed
      = deriveAndSetSharedKey (handleAddPeer st identity (some p)) seed := by
    unfold stepAddPeer
    rw [if_pos hacc]
  have hhandle : handleAddPeer st identity (some p)
      = { st with error := "",
                  peer := some ⟨p.userId, p.username, pk, p.publicKeyFingerprint⟩,
                  peerInput := "", messages := [], sharedKeyStored := none } := by
    unfold handleAddPeer
    simp only [hpk']
    rw [if_pos ⟨hu, hn, hf⟩, if_neg hself]
  have hfinal : stepAddPeer st identity (some p) seed
      = { st with error := "",
                  peer := some ⟨p.userId, p.username, pk, p.publicKeyFingerprint⟩,
                  peerInput := "", messages := [],
                  sharedKeyStored := some (exportAesKey (generateSharedSecret seed)),
                  sharedKey := some (generateSharedSecret seed) } := by
    rw [hstep, hhandle]
    unfold deriveAndSetSharedKey
    simp
  refine ⟨by rw [hfinal], by rw [hfinal], ?_⟩
  intro oldKey hold hne
  rw [hfinal]
  intro h
  exact hne (Option.some.inj h).symm

/-- Concrete pre-state for the state-machine witnesses: an old peer
relationship with session key 9 both active and stored. -/
def wChatState : ChatState :=
  { peer := some ⟨"carol-uuid", "Carol", ⟨"RSA", 3, false⟩, "FP3"⟩,
    peerInput := "...", message := "", messages := [],
    sharedKey := some (.aes 9), error := "",
    sharedKeyStored := some ⟨"oct", 9, false⟩ }

/-- Concrete parsed peer payload for the state-machine witnesses. -/
def wParsedPeer : ParsedPeer :=
  { userId := "bob-uuid", username := "Bob",
    publicKey := some ⟨"RSA", 2, false⟩, publicKeyFingerprint := "FP2" }

/-- C9 witness: replacing the peer of a concrete state discards stored
key 9 and installs the freshly generated key 42. -/
theorem c9_fresh_session_key_on_new_peer_witness :
    (stepAddPeer wChatState wIdentity (some wParsedPeer) 42).sharedKeyStored
      = some (exportAesKey (generateSharedSecret 42))
    ∧ (stepAddPeer wChatState wIdentity (some wParsedPeer) 42).sharedKey
      = some (generateSharedSecret 42)
    ∧ (stepAddPeer wChatState wIdentity (some wParsedPeer) 42).sharedKey
      ≠ some (.aes 9) :=
  ⟨(c9_fresh_session_key_on_new_peer wChatState wIdentity wParsedPeer 42
      (by decide)).1,
   (c9_fresh_session_key_on_new_peer wChatState wIdentity wParsedPeer 42
      (by decide)).2.1,
   (c9_fresh_session_key_on_new_peer wChatState wIdentity wParsedPeer 42
      (by decide)).2.2 (.aes 9) rfl (by decide)⟩

/-- C10: a syntactically valid peer payload whose `userId` equals the
local identity's is rejected with the self-add error, and the state is
otherwise unchanged: peer, input, message list, active and stored session
key all keep their values; only the error field is set. -/
theorem c10_self_add_rejected_frame (st : ChatState)
    (identity : UserIdentity) (p : ParsedPeer) (seed : Nat)
    (hpk : p.publicKey.isSome) (hu : p.userId ≠ "") (hn : p.username ≠ "")
    (hf : p.publicKeyFingerprint ≠ "") (hself : p.userId = identity.userId) :
    stepAddPeer st identity (some p) seed = { st with error := selfPeerMessage } := by
  have hnacc : ¬ addPeerAccepted identity (some p) := by
    intro hacc
    simp only [addPeerAccepted] at hacc
    exact hacc.2.2.2.2 hself
  obtain ⟨pk, hpk'⟩ := Option.isSome_iff_exists.1 hpk
  unfold stepAddPeer
  rw [if_neg hnacc]
  unfold handleAddPeer
  simp only [hpk']
  rw [if_pos ⟨hu, hn, hf⟩, if_pos hself]

/-- C10 witness: the self-add rejection evaluated on a concrete state. -/
theorem c10_self_add_rejected_frame_witness :
    stepAddPeer wChatState wIdentity
      (some { userId := "alice-uuid", username := "Alice",
              publicKey := some ⟨"RSA", 1, false⟩,
              publicKeyFingerprint := "0123456789ABCDEF" }) 42
    = { wChatState with error := selfPeerMessage } :=
  c10_self_add_rejected_frame wChatState wIdentity _ 42
    (by decide) (by decide) (by decide) (by decide) (by decide)
